import Mathlib

/-!
# linkchecker: domain classification and liveness probing

A shallow embedding of `lib.go` (package `linkchecker`).

* A Go `string` is a sequence of bytes.  It is embedded as `List Char`, one `Char` per
  byte; string literals in examples are ASCII, for which `String.toList` gives exactly
  the bytes of the Go literal.
* A Go slice that a function mutates in place (`links []Link`) is embedded as a list
  that the function returns.
* A Go `error` value is embedded by its message; `nil` is `none`.
* Calls that leave the package (`url.Parse`, `http.Get`, `filepath.Glob`, `os.Open`,
  `api.Annotations`) are parameters of the embedded functions.
-/

namespace linkchecker

/-- A Go string: a sequence of bytes. -/
abbrev GoString := List Char

/-- A Go `error` that is not nil, represented by its message. -/
abbrev Error := GoString

/-- The type `Link` of `lib.go`. -/
structure Link where
  URL : GoString
  IsValid : Bool
  IsLive : Bool
deriving DecidableEq, Repr

/-- The type `Config` of `lib.go`. -/
structure Config where
  Pdfs : List GoString
  Directory : GoString
  WhitelistDomains : List GoString
  BlacklistDomains : List GoString
deriving DecidableEq, Repr

/-! ## The Go `strings` functions used by the package -/

/-- Go `strings.HasSuffix`:
`len(s) >= len(suffix) && s[len(s)-len(suffix):] == suffix`. -/
def HasSuffix (s suffix : GoString) : Bool :=
  decide (s.length ≥ suffix.length) && (s.drop (s.length - suffix.length) == suffix)

/-! ## validateLinks -/

/-- What `validateLinks` reads from the result of `url.Parse(rawURL)`:
`none` when the returned error is not nil, otherwise the `Host` field of the URL. -/
abbrev UrlParse := GoString → Option GoString

/-- The inner loop of `validateLinks` (`for _, domain := range defaultList`), as a
function of the remaining entries and of the current value of `links[i].IsValid`.
Every iteration first stores `defaultIsValid`; an entry that is a suffix of `host`
stores `!defaultIsValid` and leaves the loop. -/
def scanDomains (host : GoString) (defaultIsValid : Bool) : List GoString → Bool → Bool
  | [], isValid => isValid
  | domain :: rest, _ =>
    if HasSuffix host domain then !defaultIsValid
    else scanDomains host defaultIsValid rest defaultIsValid

/-- One iteration of the third loop of `validateLinks` (`for i := range links`),
applied to `links[i]`. -/
def validateLink (parse : UrlParse) (whitelistDomains blacklistDomains : List GoString)
    (link : Link) : Link :=
  match parse link.URL with
  | none => { link with IsValid := false }
  | some lHost =>
    let host := if lHost = [] then link.URL else lHost
    let defaultIsValid := if whitelistDomains.length > 0 then false else true
    let defaultList := if whitelistDomains.length > 0 then whitelistDomains else blacklistDomains
    { link with IsValid := scanDomains host defaultIsValid defaultList link.IsValid }

/-- The function `validateLinks` of `lib.go`; the result is the slice `links` after
the call. -/
def validateLinks (parse : UrlParse) (links : List Link)
    (whitelistDomains blacklistDomains : List GoString) : List Link :=
  if whitelistDomains.length > 0 ∧ blacklistDomains.length > 0 then
    links.map (fun link => { link with IsValid := false })
  else if whitelistDomains.length = 0 ∧ blacklistDomains.length = 0 then
    links.map (fun link => { link with IsValid := true })
  else
    links.map (validateLink parse whitelistDomains blacklistDomains)

/-! ## livenesscheck -/

/-- The result of `http.Get(url)`: an error, or the `StatusCode` of the final
response. -/
abbrev HttpGet := GoString → Except Error Int

/-- Go `http.StatusOK`. -/
def StatusOK : Int := 200

/-- One iteration of the loop of `livenesscheck`, applied to `links[i]`. -/
def probeLink (get : HttpGet) (link : Link) : Link :=
  match get link.URL with
  | .error _ => { link with IsLive := false }
  | .ok statusCode => { link with IsLive := decide (statusCode = StatusOK) }

/-- The function `livenesscheck` of `lib.go`; the result is the slice `links` after
the call. -/
def livenesscheck (get : HttpGet) (links : List Link) : List Link :=
  links.map (probeLink get)

/-! ## ValidateConfig -/

/-- The result of `filepath.Glob(filepath.Join(directory, "*.pdf"))`, as a function
of `directory`. -/
abbrev GlobPdf := GoString → Except Error (List GoString)

/-- The function `getPDFsFromDirectory` of `lib.go`. -/
def getPDFsFromDirectory (glob : GlobPdf) (directory : GoString) :
    List GoString × Option Error :=
  match glob directory with
  | .error err =>
    ([], some ("getting PDFs from directory ".toList ++ directory ++ ": ".toList ++ err))
  | .ok pdfFiles => (pdfFiles, none)

/-- The function `ValidateConfig` of `lib.go`: the configuration after the call and
the returned error.  Inside the `if config.Directory != ""` block the statement
`pdfFiles, err := getPDFsFromDirectory(...)` declares a new variable (`found` here)
that hides the outer `pdfFiles`; the test `len(pdfFiles) == 0` after the block reads
the outer one, which still holds the value `config.Pdfs` had on entry. -/
def ValidateConfig (glob : GlobPdf) (config : Config) : Config × Option Error :=
  if config.Pdfs.length = 0 ∧ config.Directory = [] then
    (config, some "provide at least one PDF file or a directory containing PDF files".toList)
  else
    let pdfFiles := config.Pdfs
    if config.Directory ≠ [] then
      match getPDFsFromDirectory glob config.Directory with
      | (_, some err) => (config, some err)
      | (found, none) =>
        let config1 := { config with Pdfs := config.Pdfs ++ found }
        if pdfFiles.length = 0 then (config1, some "no PDF files found".toList)
        else (config1, none)
    else
      if pdfFiles.length = 0 then (config, some "no PDF files found".toList)
      else (config, none)

/-! ## Link extraction and CheckLinks -/

/-- The pdfcpu type `model.AnnotationType`, an enumeration of integers. -/
abbrev AnnotationType := Nat

/-- The pdfcpu constant `model.AnnLink`. -/
def AnnLink : AnnotationType := 1

/-- A value of the pdfcpu interface `model.AnnotationRenderer`, as far as
`extractLink` tells values apart: a `model.LinkAnnotation` with its `URI`, or a
value of another type. -/
inductive AnnotationRenderer where
  | LinkAnnotation (URI : GoString)
  | other
deriving DecidableEq, Repr

/-- The pdfcpu type `model.Annot`, reduced to its field `Map`: the values of the map
in the order in which `range` visits them. -/
structure Annot where
  Map : List AnnotationRenderer
deriving DecidableEq, Repr

/-- The pdfcpu type `model.PgAnnots` (`map[AnnotationType]Annot`): its entries in the
order in which `range` visits them. -/
abbrev PgAnnots := List (AnnotationType × Annot)

/-- The calls of `extractsLinks` and `extractLink` that leave the package: `os.Open`
and `api.Annotations(f, nil, conf)`, whose result map is given by its values in the
order in which `range` visits them. -/
structure Files (File : Type) where
  Open : GoString → Except Error File
  Annotations : File → Except Error (List PgAnnots)

/-- The loop `for _, link := range annot.Map` of `extractLink`. -/
def appendLinkAnnotations (links : List Link) : List AnnotationRenderer → List Link
  | [] => links
  | AnnotationRenderer.LinkAnnotation URI :: rest =>
    if URI ≠ [] then
      appendLinkAnnotations (links ++ [{ URL := URI, IsValid := false, IsLive := false }]) rest
    else appendLinkAnnotations links rest
  | AnnotationRenderer.other :: rest => appendLinkAnnotations links rest

/-- The loop `for annotType, annot := range pageAnnot` of `extractLink`. -/
def appendPageAnnots (links : List Link) : PgAnnots → List Link
  | [] => links
  | (annotType, annot) :: rest =>
    if annotType = AnnLink then
      appendPageAnnots (appendLinkAnnotations links annot.Map) rest
    else appendPageAnnots links rest

/-- The loop `for _, pageAnnot := range annots` of `extractLink`. -/
def appendAnnots (links : List Link) : List PgAnnots → List Link
  | [] => links
  | pageAnnot :: rest => appendAnnots (appendPageAnnots links pageAnnot) rest

/-- The function `extractLink` of `lib.go`. -/
def extractLink {File : Type} (fs : Files File) (f : File) : List Link × Option Error :=
  match fs.Annotations f with
  | .error err => ([], some ("extracting annotations: ".toList ++ err))
  | .ok annots => (appendAnnots [] annots, none)

/-- The loop `for _, pdfFile := range pdfFiles` of `extractsLinks`, as a function of
the remaining files and of `allLinks`. -/
def extractsLinksLoop {File : Type} (fs : Files File) :
    List GoString → List Link → List Link × Option Error
  | [], allLinks => (allLinks, none)
  | pdfFile :: rest, allLinks =>
    match fs.Open pdfFile with
    | .error err => ([], some ("opening PDF file ".toList ++ pdfFile ++ ": ".toList ++ err))
    | .ok f =>
      match extractLink fs f with
      | (_, some err) =>
        ([], some ("extracting links from PDF file ".toList ++ pdfFile ++ ": ".toList ++ err))
      | (links, none) => extractsLinksLoop fs rest (allLinks ++ links)

/-- The function `extractsLinks` of `lib.go`. -/
def extractsLinks {File : Type} (fs : Files File) (pdfFiles : List GoString) :
    List Link × Option Error :=
  extractsLinksLoop fs pdfFiles []

/-- The function `CheckLinks` of `lib.go`. -/
def CheckLinks {File : Type} (fs : Files File) (parse : UrlParse) (get : HttpGet)
    (config : Config) : List Link × Option Error :=
  match extractsLinks fs config.Pdfs with
  | (_, some err) => ([], some ("error extracting links: ".toList ++ err))
  | (links, none) =>
    (livenesscheck get
      (validateLinks parse links config.WhitelistDomains config.BlacklistDomains), none)

/-! ## A model of `url.Parse`

`validateLinks` and the theorems about it take `url.Parse` as a parameter.  The
concrete examples need one parser to run: the definitions below follow `Parse` of the
Go standard library package `net/url` (Go 1.22), which is not part of this repository,
keeping of the parsed URL only what `validateLinks` reads (the error and `Host`). -/

namespace url

/-- Go `strings.HasPrefix`: `len(s) >= len(prefix) && s[:len(prefix)] == prefix`. -/
def HasPrefix (s pre : GoString) : Bool :=
  decide (s.length ≥ pre.length) && (s.take pre.length == pre)

/-- Go `strings.IndexByte(s, c)`; `none` stands for -1. -/
def IndexByte (s : GoString) (c : Char) : Option Nat :=
  match s with
  | [] => none
  | b :: rest => if b = c then some 0 else (IndexByte rest c).map (· + 1)

/-- Go `strings.LastIndexByte(s, c)`; `none` stands for -1. -/
def LastIndexByte (s : GoString) (c : Char) : Option Nat :=
  match s with
  | [] => none
  | b :: rest =>
    match LastIndexByte rest c with
    | some i => some (i + 1)
    | none => if b = c then some 0 else none

/-- Go `strings.Index(s, substr)`; `none` stands for -1. -/
def Index (s substr : GoString) : Option Nat :=
  if HasPrefix s substr then some 0
  else
    match s with
    | [] => none
    | _ :: rest => (Index rest substr).map (· + 1)

/-- Go `strings.Cut(s, sep)` for a one-byte separator: `before` and `after`. -/
def Cut (s : GoString) (sep : Char) : GoString × GoString :=
  match IndexByte s sep with
  | some i => (s.take i, s.drop (i + 1))
  | none => (s, [])

/-- Go `stringContainsCTLByte`. -/
def stringContainsCTLByte (s : GoString) : Bool :=
  s.any (fun b => decide (b < ' ') || decide (b = Char.ofNat 0x7f))

/-- The test `'a' <= c && c <= 'z' || 'A' <= c && c <= 'Z'`. -/
def isAlpha (c : Char) : Bool :=
  (decide ('a' ≤ c) && decide (c ≤ 'z')) || (decide ('A' ≤ c) && decide (c ≤ 'Z'))

/-- The test `'0' <= c && c <= '9'`. -/
def isDigit (c : Char) : Bool := decide ('0' ≤ c) && decide (c ≤ '9')

/-- The loop of Go `getScheme` at index `i`, with `rawURL[i:]` as second argument.
The result is `(scheme, path)`, or `none` for the error "missing protocol scheme". -/
def getSchemeLoop (rawURL : GoString) : Nat → GoString → Option (GoString × GoString)
  | _, [] => some ([], rawURL)
  | i, c :: rest =>
    if isAlpha c then getSchemeLoop rawURL (i + 1) rest
    else if isDigit c || c = '+' || c = '-' || c = '.' then
      if i = 0 then some ([], rawURL) else getSchemeLoop rawURL (i + 1) rest
    else if c = ':' then
      if i = 0 then none else some (rawURL.take i, rawURL.drop (i + 1))
    else some ([], rawURL)

/-- Go `getScheme`. -/
def getScheme (rawURL : GoString) : Option (GoString × GoString) :=
  getSchemeLoop rawURL 0 rawURL

/-- Go `encoding`, the mode of `unescape`. -/
inductive encoding where
  | encodePath | encodePathSegment | encodeHost | encodeZone
  | encodeUserPassword | encodeQueryComponent | encodeFragment
deriving DecidableEq, Repr

/-- Go `ishex`. -/
def ishex (c : Char) : Bool :=
  (decide ('0' ≤ c) && decide (c ≤ '9')) || (decide ('a' ≤ c) && decide (c ≤ 'f'))
    || (decide ('A' ≤ c) && decide (c ≤ 'F'))

/-- Go `unhex`. -/
def unhex (c : Char) : Nat :=
  if '0' ≤ c ∧ c ≤ '9' then c.toNat - '0'.toNat
  else if 'a' ≤ c ∧ c ≤ 'f' then c.toNat - 'a'.toNat + 10
  else if 'A' ≤ c ∧ c ≤ 'F' then c.toNat - 'A'.toNat + 10
  else 0

/-- Go `shouldEscape(c, encodeHost)`: letters and digits, the bytes a host may hold
unescaped (among them the single quote, 39, and the double quote, 34) and the
unreserved marks are not escaped; every other byte is. -/
def shouldEscapeHost (c : Char) : Bool :=
  if isAlpha c || isDigit c then false
  else if c ∈ "!$&()*+,;=:[]<>".toList ∨ c = Char.ofNat 39 ∨ c = Char.ofNat 34 then false
  else if c ∈ "-_.~".toList then false
  else true

/-- Go `unescape(s, mode)`; `none` when it returns an error. -/
def unescape (mode : encoding) : GoString → Option GoString
  | [] => some []
  | c :: rest =>
    if c = '%' then
      match rest with
      | h1 :: h2 :: rest2 =>
        if !ishex h1 || !ishex h2 then none
        else if mode = encoding.encodeHost ∧ unhex h1 < 8 ∧ ¬ (h1 = '2' ∧ h2 = '5') then none
        else if mode = encoding.encodeZone ∧ ¬ (h1 = '2' ∧ h2 = '5')
            ∧ Char.ofNat (unhex h1 * 16 + unhex h2) ≠ ' '
            ∧ shouldEscapeHost (Char.ofNat (unhex h1 * 16 + unhex h2)) then none
        else (unescape mode rest2).map (Char.ofNat (unhex h1 * 16 + unhex h2) :: ·)
      | _ => none
    else if c = '+' then
      (unescape mode rest).map
        ((if mode = encoding.encodeQueryComponent then ' ' else '+') :: ·)
    else if (mode = encoding.encodeHost ∨ mode = encoding.encodeZone) ∧ c.toNat < 0x80
        ∧ shouldEscapeHost c then none
    else (unescape mode rest).map (c :: ·)

/-- Go `validOptionalPort`. -/
def validOptionalPort (port : GoString) : Bool :=
  match port with
  | [] => true
  | c :: digits => decide (c = ':') && digits.all isDigit

/-- Go `validUserinfo`. -/
def validUserinfo (s : GoString) : Bool :=
  s.all (fun r => isAlpha r || isDigit r || decide (r ∈ "-._:~!$&()*+,;=%@".toList)
    || decide (r = Char.ofNat 39))

/-- Go `parseHost`; `none` when it returns an error. -/
def parseHost (host : GoString) : Option GoString :=
  if HasPrefix host "[".toList then
    match LastIndexByte host ']' with
    | none => none
    | some i =>
      if !validOptionalPort (host.drop (i + 1)) then none
      else
        match Index (host.take i) "%25".toList with
        | some zone =>
          match unescape encoding.encodeHost (host.take zone) with
          | none => none
          | some host1 =>
            match unescape encoding.encodeZone ((host.take i).drop zone) with
            | none => none
            | some host2 =>
              match unescape encoding.encodeHost (host.drop i) with
              | none => none
              | some host3 => some (host1 ++ host2 ++ host3)
        | none => unescape encoding.encodeHost host
  else
    match LastIndexByte host ':' with
    | some i =>
      if !validOptionalPort (host.drop i) then none else unescape encoding.encodeHost host
    | none => unescape encoding.encodeHost host

/-- Go `parseAuthority`, keeping `host` and the error. -/
def parseAuthority (authority : GoString) : Option GoString :=
  match LastIndexByte authority '@' with
  | none => parseHost authority
  | some i =>
    match parseHost (authority.drop (i + 1)) with
    | none => none
    | some host =>
      let userinfo := authority.take i
      if !validUserinfo userinfo then none
      else if !userinfo.contains ':' then
        (unescape encoding.encodeUserPassword userinfo).map (fun _ => host)
      else
        match unescape encoding.encodeUserPassword (Cut userinfo ':').1 with
        | none => none
        | some _ =>
          (unescape encoding.encodeUserPassword (Cut userinfo ':').2).map (fun _ => host)

/-- Go `parse(rawURL, false)`, keeping `url.Host` and the error. -/
def parse (rawURL : GoString) : Option GoString :=
  if stringContainsCTLByte rawURL then none
  else if rawURL = "*".toList then some []
  else
    match getScheme rawURL with
    | none => none
    | some (scheme, rest0) =>
      let rest1 :=
        if HasSuffix rest0 "?".toList ∧ rest0.count '?' = 1 then rest0.take (rest0.length - 1)
        else (Cut rest0 '?').1
      if !HasPrefix rest1 "/".toList ∧ scheme ≠ [] then some []
      else if !HasPrefix rest1 "/".toList ∧ (Cut rest1 '/').1.contains ':' then none
      else if (scheme ≠ [] ∨ !HasPrefix rest1 "///".toList) ∧ HasPrefix rest1 "//".toList then
        let authority0 := rest1.drop 2
        let (authority, rest) :=
          match IndexByte authority0 '/' with
          | some i => (authority0.take i, authority0.drop i)
          | none => (authority0, [])
        match parseAuthority authority with
        | none => none
        | some host => (unescape encoding.encodePath rest).map (fun _ => host)
      else (unescape encoding.encodePath rest1).map (fun _ => [])

/-- Go `url.Parse`, keeping `Host` and the error. -/
def Parse : UrlParse := fun rawURL =>
  match parse (Cut rawURL '#').1 with
  | none => none
  | some host =>
    if (Cut rawURL '#').2 = [] then some host
    else (unescape encoding.encodeFragment (Cut rawURL '#').2).map (fun _ => host)

end url

/-- A list of links with the given URLs and both flags false, as the tests of
`lib_test.go` build them. -/
def linksOf (urls : List String) : List Link :=
  urls.map (fun u => { URL := u.toList, IsValid := false, IsLive := false })

/-- What one iteration of the loop of `extractsLinks` gets for `pdfFile` from its two
calls, `os.Open` and then `extractLink`: the links of the file, or the error of the
call that failed. -/
def extractPdf {File : Type} (fs : Files File) (pdfFile : GoString) : List Link × Option Error :=
  match fs.Open pdfFile with
  | .error err => ([], some err)
  | .ok f => extractLink fs f

/-! ## Concrete surroundings for the examples -/

/-- The server of `TestLivenesscheck`, seen through `http.Get`: `/live` answers 200,
`/redirect` is followed to `/live`, `/dead` answers 404, `/access-denied` answers 403;
a request to any other address fails. -/
def testGet : HttpGet := fun u =>
  if u = "http://127.0.0.1:8080/live".toList then .ok 200
  else if u = "http://127.0.0.1:8080/redirect".toList then .ok 200
  else if u = "http://127.0.0.1:8080/dead".toList then .ok 404
  else if u = "http://127.0.0.1:8080/access-denied".toList then .ok 403
  else .error "connection refused".toList

/-- A file system with two PDF files, each identified with its path once opened:
`a.pdf` holds, on one page, a link to `https://a.com/x`, a link annotation with an
empty URI and an annotation of another type; `b.pdf` holds a link to `a.com`.  No
other file can be opened. -/
def testFiles : Files GoString where
  Open := fun path =>
    if path = "a.pdf".toList ∨ path = "b.pdf".toList then .ok path
    else .error "no such file or directory".toList
  Annotations := fun f =>
    if f = "a.pdf".toList then
      .ok [[(AnnLink, ⟨[AnnotationRenderer.LinkAnnotation "https://a.com/x".toList,
                        AnnotationRenderer.LinkAnnotation [], AnnotationRenderer.other]⟩),
            (0, ⟨[AnnotationRenderer.other]⟩)]]
    else .ok [[(AnnLink, ⟨[AnnotationRenderer.LinkAnnotation "a.com".toList]⟩)]]

/-- A directory `docs` in which the pattern `docs/*.pdf` finds one file. -/
def testGlob : GlobPdf := fun directory =>
  if directory = "docs".toList then .ok ["docs/a.pdf".toList] else .ok []

/-! ## Lemmas shared by the theorems -/

/-- `HasSuffix s suffix` holds exactly when `suffix` is a suffix of `s`. -/
theorem HasSuffix_iff (s suffix : GoString) : HasSuffix s suffix = true ↔ suffix <:+ s := by
  unfold HasSuffix
  constructor
  · intro h
    simp only [Bool.and_eq_true, decide_eq_true_eq, beq_iff_eq] at h
    exact List.suffix_iff_eq_drop.mpr h.2.symm
  · intro h
    simp only [Bool.and_eq_true, decide_eq_true_eq, beq_iff_eq]
    exact ⟨h.length_le, (List.suffix_iff_eq_drop.mp h).symm⟩

/-- On a list with at least one entry the inner loop forgets the previous value of
`IsValid`: the result is `!defaultIsValid` when some entry is a suffix of `host`, and
`defaultIsValid` otherwise. -/
theorem scanDomains_cons (host : GoString) (defaultIsValid : Bool) (domain : GoString)
    (rest : List GoString) (isValid : Bool) :
    scanDomains host defaultIsValid (domain :: rest) isValid =
      if (domain :: rest).any (HasSuffix host) then !defaultIsValid else defaultIsValid := by
  induction rest generalizing domain isValid with
  | nil =>
    cases h : HasSuffix host domain <;> simp [scanDomains, h]
  | cons d ds ih =>
    cases h : HasSuffix host domain
    · rw [scanDomains]
      simp only [h, Bool.false_eq_true, if_false]
      rw [ih d defaultIsValid]
      simp [List.any_cons, h]
    · simp [scanDomains, h]

/-- The same for any non-empty list. -/
theorem scanDomains_of_ne_nil (host : GoString) (defaultIsValid : Bool)
    (domains : List GoString) (isValid : Bool) (h : domains ≠ []) :
    scanDomains host defaultIsValid domains isValid =
      if domains.any (HasSuffix host) then !defaultIsValid else defaultIsValid := by
  cases domains with
  | nil => exact absurd rfl h
  | cons d ds => exact scanDomains_cons host defaultIsValid d ds isValid

/-- Some entry of `domains` passes `HasSuffix host` exactly when some entry is a
suffix of `host`. -/
theorem any_HasSuffix_iff (host : GoString) (domains : List GoString) :
    domains.any (HasSuffix host) = true ↔ ∃ d ∈ domains, d <:+ host := by
  simp only [List.any_eq_true, HasSuffix_iff]

/-- With both lists non-empty `validateLinks` takes its first branch. -/
theorem validateLinks_both (parse : UrlParse) (links : List Link) (wl bl : List GoString)
    (hw : wl ≠ []) (hb : bl ≠ []) :
    validateLinks parse links wl bl = links.map (fun link => { link with IsValid := false }) := by
  have h1 : wl.length > 0 := List.length_pos.mpr hw
  have h2 : bl.length > 0 := List.length_pos.mpr hb
  simp [validateLinks, h1, h2]

/-- With both lists empty `validateLinks` takes its second branch. -/
theorem validateLinks_neither (parse : UrlParse) (links : List Link) :
    validateLinks parse links [] [] = links.map (fun link => { link with IsValid := true }) := by
  simp [validateLinks]

/-- With exactly one list non-empty `validateLinks` takes its third branch. -/
theorem validateLinks_one (parse : UrlParse) (links : List Link) (wl bl : List GoString)
    (h : (wl ≠ [] ∧ bl = []) ∨ (wl = [] ∧ bl ≠ [])) :
    validateLinks parse links wl bl = links.map (validateLink parse wl bl) := by
  rcases h with ⟨hw, hb⟩ | ⟨hw, hb⟩
  · subst hb
    have h1 : wl.length > 0 := List.length_pos.mpr hw
    have h3 : wl.length ≠ 0 := Nat.pos_iff_ne_zero.mp h1
    simp [validateLinks, h3]
  · subst hw
    have h1 : bl.length > 0 := List.length_pos.mpr hb
    have h3 : bl.length ≠ 0 := Nat.pos_iff_ne_zero.mp h1
    simp [validateLinks, h3]

/-- In every branch `validateLinks` maps one function over the links, and that
function keeps `URL` and `IsLive` and computes `IsValid` from the URL alone. -/
theorem validateLinks_eq_map (parse : UrlParse) (wl bl : List GoString) :
    ∃ f : GoString → Bool, ∀ links : List Link,
      validateLinks parse links wl bl = links.map (fun link => { link with IsValid := f link.URL }) := by
  by_cases hw : wl = [] <;> by_cases hb : bl = []
  · subst hw; subst hb
    exact ⟨fun _ => true, fun links => validateLinks_neither parse links⟩
  · refine ⟨fun u => match parse u with
      | none => false
      | some lHost => scanDomains (if lHost = [] then u else lHost) true bl false, fun links => ?_⟩
    rw [validateLinks_one parse links wl bl (Or.inr ⟨hw, hb⟩)]
    apply List.map_congr_left
    intro link _
    subst hw
    unfold validateLink
    cases hp : parse link.URL with
    | none => simp only [hp]
    | some lHost =>
      simp only [hp, List.length_nil, gt_iff_lt, Nat.lt_irrefl, if_false]
      rw [scanDomains_of_ne_nil _ _ _ link.IsValid hb, scanDomains_of_ne_nil _ _ _ false hb]
  · refine ⟨fun u => match parse u with
      | none => false
      | some lHost => scanDomains (if lHost = [] then u else lHost) false wl false, fun links => ?_⟩
    rw [validateLinks_one parse links wl bl (Or.inl ⟨hw, hb⟩)]
    apply List.map_congr_left
    intro link _
    have h1 : wl.length > 0 := List.length_pos.mpr hw
    unfold validateLink
    cases hp : parse link.URL with
    | none => simp only [hp]
    | some lHost =>
      simp only [hp, h1, if_true]
      rw [scanDomains_of_ne_nil _ _ _ link.IsValid hw, scanDomains_of_ne_nil _ _ _ false hw]
  · exact ⟨fun _ => false, fun links => validateLinks_both parse links wl bl hw hb⟩

/-! ## Both lists non-empty, both lists empty -/

/-- C2: when the whitelist and the blacklist are both non-empty, after `validateLinks`
the list has as many links as before and every link has `IsValid = false`, whatever
its URL, whatever `url.Parse` does with it and whatever `IsValid` was before. -/
theorem validateLinks_both_nonempty_all_invalid (parse : UrlParse) (links : List Link)
    (whitelist blacklist : List GoString) (hw : whitelist ≠ []) (hb : blacklist ≠ []) :
    (validateLinks parse links whitelist blacklist).map Link.IsValid
      = List.replicate links.length false := by
  rw [validateLinks_both parse links whitelist blacklist hw hb, List.map_map]
  induction links with
  | nil => rfl
  | cons l ls ih => simp [List.replicate_succ, ih]

/-- C2 at the first case of `TestDomainBlacklistWhitelist`: blacklist `a.com`,
whitelist `b.com`, three links. -/
theorem validateLinks_both_nonempty_all_invalid_witness :
    ["b.com".toList] ≠ [] ∧ ["a.com".toList] ≠ [] ∧
    (validateLinks url.Parse
        (linksOf ["https://a.com", "https://b.com", "https://c.com"])
        ["b.com".toList] ["a.com".toList]).map Link.IsValid
      = List.replicate (linksOf ["https://a.com", "https://b.com", "https://c.com"]).length false :=
  ⟨by decide, by decide,
    validateLinks_both_nonempty_all_invalid url.Parse
      (linksOf ["https://a.com", "https://b.com", "https://c.com"])
      ["b.com".toList] ["a.com".toList] (by decide) (by decide)⟩

/-- C3: when the whitelist and the blacklist are both empty, after `validateLinks` the
list has as many links as before and every link has `IsValid = true`, whatever its
URL (`url.Parse` is arbitrary here, so also for URLs that do not parse) and whatever
`IsValid` was before. -/
theorem validateLinks_both_empty_all_valid (parse : UrlParse) (links : List Link) :
    (validateLinks parse links [] []).map Link.IsValid = List.replicate links.length true := by
  rw [validateLinks_neither parse links, List.map_map]
  induction links with
  | nil => rfl
  | cons l ls ih => simp [List.replicate_succ, ih]

/-! ## Frame: what the two passes leave alone -/

/-- C9: `validateLinks` changes nothing but `IsValid` and `livenesscheck` changes
nothing but `IsLive`.  After either, and after both in sequence, the list has the same
length and the same URLs in the same order; `validateLinks` leaves every `IsLive` as
it was and `livenesscheck` leaves every `IsValid` as it was. -/
theorem validateLinks_livenesscheck_frame (parse : UrlParse) (get : HttpGet)
    (links : List Link) (whitelist blacklist : List GoString) :
    ((validateLinks parse links whitelist blacklist).length = links.length
      ∧ (validateLinks parse links whitelist blacklist).map Link.URL = links.map Link.URL
      ∧ (validateLinks parse links whitelist blacklist).map Link.IsLive
          = links.map Link.IsLive)
    ∧ ((livenesscheck get links).length = links.length
      ∧ (livenesscheck get links).map Link.URL = links.map Link.URL
      ∧ (livenesscheck get links).map Link.IsValid = links.map Link.IsValid)
    ∧ ((livenesscheck get (validateLinks parse links whitelist blacklist)).length
          = links.length
      ∧ (livenesscheck get (validateLinks parse links whitelist blacklist)).map Link.URL
          = links.map Link.URL
      ∧ (livenesscheck get (validateLinks parse links whitelist blacklist)).map Link.IsValid
          = (validateLinks parse links whitelist blacklist).map Link.IsValid
      ∧ (livenesscheck get (validateLinks parse links whitelist blacklist)).map Link.IsLive
          = (livenesscheck get links).map Link.IsLive) := by
  obtain ⟨f, hf⟩ := validateLinks_eq_map parse whitelist blacklist
  have hURL : ∀ l : Link, (probeLink get l).URL = l.URL := by
    intro l; unfold probeLink; cases get l.URL <;> rfl
  have hValid : ∀ l : Link, (probeLink get l).IsValid = l.IsValid := by
    intro l; unfold probeLink; cases get l.URL <;> rfl
  have hLive : ∀ (l : Link) (b : Bool),
      (probeLink get { l with IsValid := b }).IsLive = (probeLink get l).IsLive := by
    intro l b; unfold probeLink; cases get l.URL <;> rfl
  refine ⟨⟨?_, ?_, ?_⟩, ⟨?_, ?_, ?_⟩, ⟨?_, ?_, ?_, ?_⟩⟩
  · rw [hf, List.length_map]
  · rw [hf, List.map_map]; rfl
  · rw [hf, List.map_map]; rfl
  · simp [livenesscheck]
  · simp only [livenesscheck, List.map_map]
    exact List.map_congr_left (fun l _ => hURL l)
  · simp only [livenesscheck, List.map_map]
    exact List.map_congr_left (fun l _ => hValid l)
  · simp [livenesscheck, hf]
  · rw [hf]
    simp only [livenesscheck, List.map_map]
    exact List.map_congr_left (fun l _ => hURL _)
  · simp only [livenesscheck, List.map_map]
    exact List.map_congr_left (fun l _ => hValid l)
  · rw [hf]
    simp only [livenesscheck, List.map_map]
    exact List.map_congr_left (fun l _ => hLive l _)

/-! ## Idempotence and purity -/

/-- C7: `validateLinks` is idempotent, and the `IsValid` flags it leaves are a function
of the URLs and the two lists.  Running it twice gives the same list as running it
once, and two lists of links with the same URLs (whatever their flags on entry) end
with the same `IsValid` flags. -/
theorem validateLinks_idempotent_pure (parse : UrlParse) (links links2 : List Link)
    (whitelist blacklist : List GoString)
    (hURL : links.map Link.URL = links2.map Link.URL) :
    validateLinks parse (validateLinks parse links whitelist blacklist) whitelist blacklist
        = validateLinks parse links whitelist blacklist
    ∧ (validateLinks parse links whitelist blacklist).map Link.IsValid
        = (validateLinks parse links2 whitelist blacklist).map Link.IsValid := by
  obtain ⟨f, hf⟩ := validateLinks_eq_map parse whitelist blacklist
  constructor
  · rw [hf (validateLinks parse links whitelist blacklist), hf links, List.map_map]
    rfl
  · rw [hf links, hf links2, List.map_map, List.map_map]
    have h1 : (Link.IsValid ∘ fun link : Link => { link with IsValid := f link.URL })
        = f ∘ Link.URL := rfl
    rw [h1, ← List.map_map, ← List.map_map, hURL]

/-- C7 at three links of `TestDomainBlacklistWhitelist`, once with all flags false
and once with all flags true, under whitelist `a.com`. -/
theorem validateLinks_idempotent_pure_witness :
    (linksOf ["a.com", "https://www.a.com/test", "https://b.com"]).map Link.URL
      = ([⟨"a.com".toList, true, true⟩, ⟨"https://www.a.com/test".toList, true, true⟩,
          ⟨"https://b.com".toList, true, true⟩] : List Link).map Link.URL
    ∧ (validateLinks url.Parse
          (validateLinks url.Parse (linksOf ["a.com", "https://www.a.com/test", "https://b.com"])
            ["a.com".toList] [])
          ["a.com".toList] []
        = validateLinks url.Parse (linksOf ["a.com", "https://www.a.com/test", "https://b.com"])
            ["a.com".toList] []
      ∧ (validateLinks url.Parse (linksOf ["a.com", "https://www.a.com/test", "https://b.com"])
            ["a.com".toList] []).map Link.IsValid
        = (validateLinks url.Parse
            [⟨"a.com".toList, true, true⟩, ⟨"https://www.a.com/test".toList, true, true⟩,
              ⟨"https://b.com".toList, true, true⟩]
            ["a.com".toList] []).map Link.IsValid) :=
  ⟨by decide,
    validateLinks_idempotent_pure url.Parse
      (linksOf ["a.com", "https://www.a.com/test", "https://b.com"])
      [⟨"a.com".toList, true, true⟩, ⟨"https://www.a.com/test".toList, true, true⟩,
        ⟨"https://b.com".toList, true, true⟩]
      ["a.com".toList] [] (by decide)⟩

/-! ## Exactly one list non-empty -/

/-- C1: with exactly one of the two lists non-empty, a link whose URL parses is
classified by literal suffix matching, with no regard for label boundaries.  Let `h`
be the parsed host, or the raw URL when the parsed host is empty.  Under a whitelist
the link ends valid exactly when some whitelist entry is a suffix of `h`; under a
blacklist it ends valid exactly when no blacklist entry is a suffix of `h`. -/
theorem validateLinks_suffix_match (parse : UrlParse) (links : List Link)
    (whitelist blacklist : List GoString) (i : Nat) (link : Link) (lHost : GoString)
    (hlink : links[i]? = some link) (hparse : parse link.URL = some lHost)
    (hone : (whitelist ≠ [] ∧ blacklist = []) ∨ (whitelist = [] ∧ blacklist ≠ [])) :
    ∃ out, (validateLinks parse links whitelist blacklist)[i]? = some out
      ∧ (whitelist ≠ [] →
          (out.IsValid = true ↔
            ∃ d ∈ whitelist, d <:+ (if lHost = [] then link.URL else lHost)))
      ∧ (blacklist ≠ [] →
          (out.IsValid = true ↔
            ¬ ∃ d ∈ blacklist, d <:+ (if lHost = [] then link.URL else lHost))) := by
  refine ⟨validateLink parse whitelist blacklist link, ?_, ?_, ?_⟩
  · rw [validateLinks_one parse links whitelist blacklist hone, List.getElem?_map, hlink]
    rfl
  · intro hw
    have h1 : whitelist.length > 0 := List.length_pos.mpr hw
    unfold validateLink
    simp only [hparse, h1, if_true]
    rw [scanDomains_of_ne_nil _ _ _ _ hw, ← any_HasSuffix_iff]
    cases List.any whitelist (HasSuffix (if lHost = [] then link.URL else lHost)) <;> simp
  · intro hb
    have hw : whitelist = [] := by
      rcases hone with ⟨_, hb2⟩ | ⟨hw, _⟩
      · exact absurd hb2 hb
      · exact hw
    subst hw
    unfold validateLink
    simp only [hparse, List.length_nil, gt_iff_lt, Nat.lt_irrefl, if_false]
    rw [scanDomains_of_ne_nil _ _ _ _ hb, ← any_HasSuffix_iff]
    cases List.any blacklist (HasSuffix (if lHost = [] then link.URL else lHost)) <;> simp

/-- C1 at host `xab.com` against the blacklist entry `b.com`, with the two examples
of the claim evaluated: `https://xab.com` ends invalid under blacklist `b.com`, and
the bare string `a.com` ends valid under whitelist `a.com`. -/
theorem validateLinks_suffix_match_witness :
    ((linksOf ["https://xab.com"])[0]? = some ⟨"https://xab.com".toList, false, false⟩
      ∧ url.Parse "https://xab.com".toList = some "xab.com".toList
      ∧ ((([] : List GoString) ≠ [] ∧ ["b.com".toList] = [])
          ∨ (([] : List GoString) = [] ∧ ["b.com".toList] ≠ [])))
    ∧ (∃ out, (validateLinks url.Parse (linksOf ["https://xab.com"]) []
            ["b.com".toList])[0]? = some out
        ∧ (([] : List GoString) ≠ [] →
            (out.IsValid = true ↔
              ∃ d ∈ ([] : List GoString), d <:+
                (if "xab.com".toList = [] then "https://xab.com".toList else "xab.com".toList)))
        ∧ (["b.com".toList] ≠ [] →
            (out.IsValid = true ↔
              ¬ ∃ d ∈ ["b.com".toList], d <:+
                (if "xab.com".toList = [] then "https://xab.com".toList else "xab.com".toList))))
    ∧ (validateLinks url.Parse (linksOf ["https://xab.com"]) []
          ["b.com".toList]).map Link.IsValid = [false]
    ∧ (validateLinks url.Parse (linksOf ["a.com"]) ["a.com".toList] []).map Link.IsValid
        = [true] :=
  ⟨⟨by decide, by decide, Or.inr ⟨rfl, by decide⟩⟩,
    validateLinks_suffix_match url.Parse (linksOf ["https://xab.com"]) [] ["b.com".toList] 0
      ⟨"https://xab.com".toList, false, false⟩ "xab.com".toList
      (by decide) (by decide) (Or.inr ⟨rfl, by decide⟩),
    by decide, by decide⟩

/-- C4, as the code has it: with exactly one of the two lists non-empty, a link whose
URL fails to parse ends with `IsValid = false`, whatever the active list holds; the
raw URL is not matched against the list.  Nothing else of the link changes. -/
theorem validateLinks_parse_error_invalid (parse : UrlParse) (links : List Link)
    (whitelist blacklist : List GoString) (i : Nat) (link : Link)
    (hlink : links[i]? = some link) (hparse : parse link.URL = none)
    (hone : (whitelist ≠ [] ∧ blacklist = []) ∨ (whitelist = [] ∧ blacklist ≠ [])) :
    (validateLinks parse links whitelist blacklist)[i]?
      = some { link with IsValid := false } := by
  rw [validateLinks_one parse links whitelist blacklist hone, List.getElem?_map, hlink]
  simp only [Option.map_some', validateLink, hparse]

/-- C4 as amended, at the URL `://a.com` under the whitelist `a.com`. -/
theorem validateLinks_parse_error_invalid_witness :
    ((linksOf ["://a.com"])[0]? = some ⟨"://a.com".toList, false, false⟩
      ∧ url.Parse "://a.com".toList = none
      ∧ ((["a.com".toList] ≠ [] ∧ ([] : List GoString) = [])
          ∨ (["a.com".toList] = [] ∧ ([] : List GoString) ≠ [])))
    ∧ (validateLinks url.Parse (linksOf ["://a.com"]) ["a.com".toList] [])[0]?
        = some { (⟨"://a.com".toList, false, false⟩ : Link) with IsValid := false } :=
  ⟨⟨by decide, by decide, Or.inl ⟨by decide, rfl⟩⟩,
    validateLinks_parse_error_invalid url.Parse (linksOf ["://a.com"]) ["a.com".toList] [] 0
      ⟨"://a.com".toList, false, false⟩ (by decide) (by decide) (Or.inl ⟨by decide, rfl⟩)⟩

/-- C4 as stated fails at its own example.  `://a.com` does not parse.  Under the
blacklist `b.com`, of which no entry is a suffix of the raw URL, the claim makes the
link valid and the code leaves it invalid.  Under the whitelist `a.com`, of which an
entry is a suffix of the raw URL, the claim makes the link valid and the code leaves
it invalid. -/
theorem validateLinks_parse_error_counterexample :
    url.Parse "://a.com".toList = none
    ∧ ["b.com".toList].any (HasSuffix "://a.com".toList) = false
    ∧ (validateLinks url.Parse (linksOf ["://a.com"]) [] ["b.com".toList]).map Link.IsValid
        = [false]
    ∧ ["a.com".toList].any (HasSuffix "://a.com".toList) = true
    ∧ (validateLinks url.Parse (linksOf ["://a.com"]) ["a.com".toList] []).map Link.IsValid
        = [false] := by
  decide

/-- C5, as the code has it: a host `ab.com` does match the domain entry `b.com`, since
the match is a literal suffix test.  A link whose parsed host is `ab.com` ends valid
under the whitelist `b.com` alone and invalid under the blacklist `b.com` alone. -/
theorem validateLinks_ab_com_matches_b_com (parse : UrlParse) (link : Link)
    (hparse : parse link.URL = some "ab.com".toList) :
    validateLinks parse [link] ["b.com".toList] [] = [{ link with IsValid := true }]
    ∧ validateLinks parse [link] [] ["b.com".toList] = [{ link with IsValid := false }] := by
  have hs : HasSuffix "ab.com".toList "b.com".toList = true := by decide
  constructor
  · rw [validateLinks_one parse [link] ["b.com".toList] [] (Or.inl ⟨by decide, rfl⟩)]
    simp [validateLink, hparse, scanDomains]
    exact hs
  · rw [validateLinks_one parse [link] [] ["b.com".toList] (Or.inr ⟨rfl, by decide⟩)]
    simp [validateLink, hparse, scanDomains]
    exact hs

/-- C5 as amended, at the link `https://ab.com`. -/
theorem validateLinks_ab_com_matches_b_com_witness :
    url.Parse (⟨"https://ab.com".toList, false, false⟩ : Link).URL = some "ab.com".toList
    ∧ (validateLinks url.Parse [⟨"https://ab.com".toList, false, false⟩] ["b.com".toList] []
        = [{ (⟨"https://ab.com".toList, false, false⟩ : Link) with IsValid := true }]
      ∧ validateLinks url.Parse [⟨"https://ab.com".toList, false, false⟩] [] ["b.com".toList]
        = [{ (⟨"https://ab.com".toList, false, false⟩ : Link) with IsValid := false }]) :=
  ⟨by decide,
    validateLinks_ab_com_matches_b_com url.Parse ⟨"https://ab.com".toList, false, false⟩
      (by decide)⟩

/-- C5 as stated fails at its own example.  The host of `https://ab.com` is `ab.com`,
of which `b.com` is a suffix; the claim makes the link invalid under the whitelist
`b.com` and valid under the blacklist `b.com`, and the code does the opposite in both
cases. -/
theorem validateLinks_ab_com_counterexample :
    url.Parse "https://ab.com".toList = some "ab.com".toList
    ∧ HasSuffix "ab.com".toList "b.com".toList = true
    ∧ (validateLinks url.Parse (linksOf ["https://ab.com"]) ["b.com".toList] []).map
        Link.IsValid = [true]
    ∧ (validateLinks url.Parse (linksOf ["https://ab.com"]) [] ["b.com".toList]).map
        Link.IsValid = [false] := by
  decide

/-! ## livenesscheck -/

/-- C6: with `http.Get` a function from a URL to an error or a final status code,
after `livenesscheck` every link, whatever its `IsValid`, has `IsLive = true` exactly
when the request for its own URL returned no error and the status code 200.  A request
error or another status code makes `IsLive` false.  The list keeps its length, so
every link is probed, and the result at an index depends on the URL at that index
alone. -/
theorem livenesscheck_live_iff_status_ok (get : HttpGet) (links : List Link) (i : Nat)
    (link : Link) (hlink : links[i]? = some link) :
    (livenesscheck get links).length = links.length
    ∧ ∃ out, (livenesscheck get links)[i]? = some out
      ∧ out.URL = link.URL ∧ out.IsValid = link.IsValid
      ∧ (out.IsLive = true ↔ get link.URL = Except.ok 200)
      ∧ ((∃ err, get link.URL = Except.error err) → out.IsLive = false)
      ∧ (∀ code, get link.URL = Except.ok code → code ≠ 200 → out.IsLive = false) := by
  refine ⟨by simp [livenesscheck], probeLink get link, ?_, ?_⟩
  · simp [livenesscheck, List.getElem?_map, hlink]
  · unfold probeLink
    cases hg : get link.URL with
    | error err => simp
    | ok code =>
      refine ⟨rfl, rfl, ?_, ?_, ?_⟩
      · simp [StatusOK]
      · rintro ⟨err, herr⟩
        cases herr
      · intro code2 hcode hne
        cases hcode
        simp [StatusOK, hne]

/-- C6 at the links of `TestLivenesscheck` followed by a link to a host that refuses
the connection, for the last link; the whole list is evaluated as well. -/
theorem livenesscheck_live_iff_status_ok_witness :
    (linksOf ["http://127.0.0.1:8080/dead", "http://127.0.0.1:8080/live",
        "http://127.0.0.1:8080/redirect", "http://127.0.0.1:8080/access-denied",
        "http://127.0.0.1:1/live"])[4]?
      = some ⟨"http://127.0.0.1:1/live".toList, false, false⟩
    ∧ ((livenesscheck testGet (linksOf ["http://127.0.0.1:8080/dead",
          "http://127.0.0.1:8080/live", "http://127.0.0.1:8080/redirect",
          "http://127.0.0.1:8080/access-denied", "http://127.0.0.1:1/live"])).length
        = (linksOf ["http://127.0.0.1:8080/dead", "http://127.0.0.1:8080/live",
          "http://127.0.0.1:8080/redirect", "http://127.0.0.1:8080/access-denied",
          "http://127.0.0.1:1/live"]).length
      ∧ ∃ out, (livenesscheck testGet (linksOf ["http://127.0.0.1:8080/dead",
            "http://127.0.0.1:8080/live", "http://127.0.0.1:8080/redirect",
            "http://127.0.0.1:8080/access-denied", "http://127.0.0.1:1/live"]))[4]? = some out
        ∧ out.URL = (⟨"http://127.0.0.1:1/live".toList, false, false⟩ : Link).URL
        ∧ out.IsValid = (⟨"http://127.0.0.1:1/live".toList, false, false⟩ : Link).IsValid
        ∧ (out.IsLive = true ↔
            testGet (⟨"http://127.0.0.1:1/live".toList, false, false⟩ : Link).URL
              = Except.ok 200)
        ∧ ((∃ err, testGet (⟨"http://127.0.0.1:1/live".toList, false, false⟩ : Link).URL
              = Except.error err) → out.IsLive = false)
        ∧ (∀ code, testGet (⟨"http://127.0.0.1:1/live".toList, false, false⟩ : Link).URL
              = Except.ok code → code ≠ 200 → out.IsLive = false))
    ∧ (livenesscheck testGet (linksOf ["http://127.0.0.1:8080/dead",
          "http://127.0.0.1:8080/live", "http://127.0.0.1:8080/redirect",
          "http://127.0.0.1:8080/access-denied", "http://127.0.0.1:1/live"])).map Link.IsLive
        = [false, true, true, false, false] :=
  ⟨by decide,
    livenesscheck_live_iff_status_ok testGet
      (linksOf ["http://127.0.0.1:8080/dead", "http://127.0.0.1:8080/live",
        "http://127.0.0.1:8080/redirect", "http://127.0.0.1:8080/access-denied",
        "http://127.0.0.1:1/live"]) 4
      ⟨"http://127.0.0.1:1/live".toList, false, false⟩ (by decide),
    by decide⟩

/-! ## CheckLinks -/

/-- When every remaining file opens and extracts, the loop of `extractsLinks` returns
no error and has appended the links of the files, in the order of the files. -/
theorem extractsLinksLoop_ok {File : Type} (fs : Files File) (pdfFiles : List GoString)
    (allLinks : List Link) (h : ∀ pdfFile ∈ pdfFiles, (extractPdf fs pdfFile).2 = none) :
    extractsLinksLoop fs pdfFiles allLinks
      = (allLinks ++ pdfFiles.flatMap (fun pdfFile => (extractPdf fs pdfFile).1), none) := by
  induction pdfFiles generalizing allLinks with
  | nil => simp [extractsLinksLoop]
  | cons pdfFile rest ih =>
    have h1 := h pdfFile (List.mem_cons_self _ _)
    have h2 : ∀ q ∈ rest, (extractPdf fs q).2 = none :=
      fun q hq => h q (List.mem_cons_of_mem _ hq)
    unfold extractPdf at h1
    rw [extractsLinksLoop]
    cases hopen : fs.Open pdfFile with
    | error err => simp [hopen] at h1
    | ok f =>
      simp only [hopen] at h1
      simp only
      cases hext : extractLink fs f with
      | mk links err =>
        rw [hext] at h1
        simp only at h1
        subst h1
        simp only
        rw [ih _ h2]
        simp [List.flatMap_cons, extractPdf, hopen, hext]

/-- When some remaining file fails to open or to extract, the loop of `extractsLinks`
returns an error and no links. -/
theorem extractsLinksLoop_error {File : Type} (fs : Files File) (pdfFiles : List GoString)
    (allLinks : List Link) (h : ∃ pdfFile ∈ pdfFiles, (extractPdf fs pdfFile).2 ≠ none) :
    ∃ err, extractsLinksLoop fs pdfFiles allLinks = ([], some err) := by
  induction pdfFiles generalizing allLinks with
  | nil =>
    obtain ⟨q, hq, _⟩ := h
    cases hq
  | cons pdfFile rest ih =>
    rw [extractsLinksLoop]
    cases hopen : fs.Open pdfFile with
    | error err => exact ⟨_, rfl⟩
    | ok f =>
      simp only
      cases hext : extractLink fs f with
      | mk links err =>
        cases err with
        | some e => exact ⟨_, rfl⟩
        | none =>
          simp only
          apply ih
          obtain ⟨q, hq, hfail⟩ := h
          rcases List.mem_cons.mp hq with rfl | hq
          · exfalso
            apply hfail
            simp [extractPdf, hopen, hext]
          · exact ⟨q, hq, hfail⟩

/-- C8: `CheckLinks` returns an error exactly when, for some PDF file of the
configuration, opening the file or extracting its links fails, and then it returns no
links.  Otherwise it returns no error, and its links are the links extracted from the
files, in the order of the files and of their extraction, after `validateLinks` with
the configured lists and then `livenesscheck`. -/
theorem CheckLinks_error_iff_extraction_fails {File : Type} (fs : Files File)
    (parse : UrlParse) (get : HttpGet) (config : Config) :
    ((CheckLinks fs parse get config).2 ≠ none
        ↔ ∃ pdfFile ∈ config.Pdfs, (extractPdf fs pdfFile).2 ≠ none)
    ∧ ((CheckLinks fs parse get config).2 ≠ none → (CheckLinks fs parse get config).1 = [])
    ∧ ((CheckLinks fs parse get config).2 = none →
        (CheckLinks fs parse get config).1
          = livenesscheck get
              (validateLinks parse
                (config.Pdfs.flatMap (fun pdfFile => (extractPdf fs pdfFile).1))
                config.WhitelistDomains config.BlacklistDomains)) := by
  by_cases hfail : ∃ pdfFile ∈ config.Pdfs, (extractPdf fs pdfFile).2 ≠ none
  · obtain ⟨err, herr⟩ := extractsLinksLoop_error fs config.Pdfs [] hfail
    have hc : CheckLinks fs parse get config
        = ([], some ("error extracting links: ".toList ++ err)) := by
      simp [CheckLinks, extractsLinks, herr]
    rw [hc]
    simp [hfail]
  · have hall : ∀ pdfFile ∈ config.Pdfs, (extractPdf fs pdfFile).2 = none := by
      intro q hq
      by_contra hne
      exact hfail ⟨q, hq, hne⟩
    have hloop := extractsLinksLoop_ok fs config.Pdfs [] hall
    have hc : CheckLinks fs parse get config
        = (livenesscheck get
            (validateLinks parse
              (config.Pdfs.flatMap (fun pdfFile => (extractPdf fs pdfFile).1))
              config.WhitelistDomains config.BlacklistDomains), none) := by
      simp [CheckLinks, extractsLinks, hloop]
    rw [hc]
    simp [hfail]

/-- `CheckLinks` on the two files of `testFiles` under the whitelist `a.com`, and on a
configuration that also names a file that cannot be opened. -/
theorem CheckLinks_examples :
    CheckLinks testFiles url.Parse testGet
        ⟨["a.pdf".toList, "b.pdf".toList], [], ["a.com".toList], []⟩
      = ([⟨"https://a.com/x".toList, true, false⟩, ⟨"a.com".toList, true, false⟩], none)
    ∧ CheckLinks testFiles url.Parse testGet
        ⟨["a.pdf".toList, "c.pdf".toList, "b.pdf".toList], [], ["a.com".toList], []⟩
      = ([], some ("error extracting links: opening PDF file c.pdf: "
            ++ "no such file or directory").toList) := by
  decide

/-! ## ValidateConfig -/

/-- `ValidateConfig` returns no error exactly when `config.Pdfs` is non-empty on entry
and the directory, if one is given, can be listed. -/
theorem ValidateConfig_ok_iff (glob : GlobPdf) (config : Config) :
    (ValidateConfig glob config).2 = none
      ↔ config.Pdfs ≠ []
        ∧ (config.Directory = [] ∨ ∃ found, glob config.Directory = Except.ok found) := by
  unfold ValidateConfig getPDFsFromDirectory
  by_cases hp : config.Pdfs = [] <;> by_cases hd : config.Directory = []
  · simp [hp, hd]
  · cases hg : glob config.Directory <;> simp [hp, hd]
  · simp [hp, hd]
  · cases hg : glob config.Directory <;> simp [hp, hd]

/-- A configuration with no PDF file and a directory in which the listing finds files
is rejected with "no PDF files found", after the files found were stored in
`config.Pdfs`. -/
theorem ValidateConfig_directory_only (glob : GlobPdf) (config : Config)
    (found : List GoString) (hp : config.Pdfs = []) (hd : config.Directory ≠ [])
    (hg : glob config.Directory = Except.ok found) :
    ValidateConfig glob config
      = ({ config with Pdfs := found }, some "no PDF files found".toList) := by
  unfold ValidateConfig getPDFsFromDirectory
  simp [hp, hd, hg]

/-- C10 fails in the code: for the configuration with no PDF file and the directory
`docs`, in which the listing finds `docs/a.pdf` without error, `ValidateConfig` stores
the file in `config.Pdfs` and then returns the error "no PDF files found". -/
theorem ValidateConfig_directory_only_rejected :
    testGlob "docs".toList = Except.ok ["docs/a.pdf".toList]
    ∧ ValidateConfig testGlob ⟨[], "docs".toList, [], []⟩
      = (⟨["docs/a.pdf".toList], "docs".toList, [], []⟩, some "no PDF files found".toList) :=
  ⟨rfl, ValidateConfig_directory_only testGlob ⟨[], "docs".toList, [], []⟩
    ["docs/a.pdf".toList] rfl (by decide) rfl⟩

end linkchecker
